import Mathlib

/-!
# Goprinter: the ESC/POS raster encoder and the print handler

A shallow embedding of `main.go`: `ConvertToESCPos` (resample, frame, threshold
and bit-pack an image) and `printBarcode` (decode the request body, encode it,
write it to the USB endpoint).

Conventions of the embedding.

* A Go `byte` is a `Nat` below 256; the conversions `byte(e)` of the source are
  written `e % 256`.
* A Go `[]byte` is a `List Nat`; `append(s, a, b)` is `s ++ [a, b]`.
* A Go `int` holding an image extent is a `Nat`: `Bounds().Dx()` and
  `Bounds().Dy()` of a well-formed rectangle are non-negative, and the extents
  are taken small enough that `Dx + 125` and `xByte * 8 + bit` stay below
  `2 ^ 63`, so the 64-bit arithmetic of the source is exact on them.
* Calls into other packages (`resize.Resize`, `png.Decode`, `io.ReadAll`,
  `gousb`) are parameters of the model.
-/

namespace Goprinter

/-! ## Data model -/

/-- What `ConvertToESCPos` observes of an `image.Image`: the extents of its
bounds and, for every coordinate pair the loop asks for, the byte
`color.GrayModel.Convert(img.At(x, y)).(color.Gray).Y`.  `At` is defined on all
coordinates, also outside the bounds. -/
structure Image where
  /-- The value of `img.Bounds().Dx()`. -/
  Dx : Nat
  /-- The value of `img.Bounds().Dy()`. -/
  Dy : Nat
  /-- The gray byte of `img.At(x, y)`. -/
  grayAt : Nat → Nat → Fin 256

/-- The type of `resize.Resize` with the interpolation kernel fixed to
`resize.Bicubic`: requested width, requested height, input image. -/
abbrev Resampler := Nat → Nat → Image → Image

/-- The constant `printableWidth` of `ConvertToESCPos`. -/
def printableWidth : Nat := 384

/-- The constant `printableHeight` of `ConvertToESCPos`. -/
def printableHeight : Nat := 192

/-! ## `ConvertToESCPos` -/

/-- The statement `widthBytes := width / 8; if width%8 != 0 { widthBytes++ }`. -/
def widthBytesOf (width : Nat) : Nat :=
  let widthBytes := width / 8
  if width % 8 ≠ 0 then widthBytes + 1 else widthBytes

/-- One iteration of the loop over `bit`: the new value of `byteVal`. -/
def bitStep (img : Image) (width y xByte : Nat) (byteVal bit : Nat) : Nat :=
  let x := (xByte * 8) + bit
  if x < width then
    if (img.grayAt x y).val < 128 then byteVal ||| (1 <<< (7 - bit)) else byteVal
  else byteVal

/-- The loop `for bit := 0; bit < 8; bit++` started from `var byteVal byte`. -/
def packByte (img : Image) (width y xByte : Nat) : Nat :=
  (List.range 8).foldl (bitStep img width y xByte) 0

/-- The loop `for xByte := 0; xByte < widthBytes; xByte++`, appending one byte
per iteration to `escposData`. -/
def packRow (img : Image) (width widthBytes y : Nat) (escposData : List Nat) : List Nat :=
  (List.range widthBytes).foldl
    (fun acc xByte => acc ++ [packByte img width y xByte]) escposData

/-- The loop `for y := 0; y < height; y++`. -/
def packRows (img : Image) (width widthBytes height : Nat) (escposData : List Nat) :
    List Nat :=
  (List.range height).foldl (fun acc y => packRow img width widthBytes y acc) escposData

/-- The function `ConvertToESCPos` of `main.go`, over the resampler it calls. -/
def ConvertToESCPos (Resize : Resampler) (img : Image) : List Nat :=
  let img := Resize printableWidth printableHeight img
  let width := img.Dx + 125
  let height := img.Dy
  let widthBytes := widthBytesOf width
  let escposData : List Nat := []
  let escposData := escposData ++ [0x1B, 0x40]
  let escposData := escposData ++ [0x1D, 0x76, 0x30, 0x00]
  let escposData := escposData ++ [widthBytes % 256, (widthBytes >>> 8) % 256]
  let escposData := escposData ++ [height % 256, (height >>> 8) % 256]
  let escposData := packRows img width widthBytes height escposData
  let escposData := escposData ++ [0x0A, 0x0A]
  escposData

/-- The image the loops of `ConvertToESCPos` read: the result of its call
`resize.Resize(printableWidth, printableHeight, img, resize.Bicubic)`. -/
def resampled (Resize : Resampler) (img : Image) : Image :=
  Resize printableWidth printableHeight img

/-! ## Reading a command buffer -/

/-- The first ten bytes of a command buffer: the reset command, the raster-mode
selector, the width field and the height field. -/
def header (buf : List Nat) : List Nat := buf.take 10

/-- The bytes between the ten header bytes and the two trailer bytes. -/
def payload (buf : List Nat) : List Nat := (buf.drop 10).take (buf.length - 12)

/-- The last two bytes of a buffer. -/
def trailer (buf : List Nat) : List Nat := buf.drop (buf.length - 2)

/-- A byte pair read as a little-endian 16-bit integer. -/
def le16 (lo hi : Nat) : Nat := lo + 256 * hi

/-- The width field of a command buffer, bytes 6 and 7, decoded. -/
def widthField (buf : List Nat) : Option Nat :=
  match buf[6]?, buf[7]? with
  | some lo, some hi => some (le16 lo hi)
  | _, _ => none

/-- The height field of a command buffer, bytes 8 and 9, decoded. -/
def heightField (buf : List Nat) : Option Nat :=
  match buf[8]?, buf[9]? with
  | some lo, some hi => some (le16 lo hi)
  | _, _ => none

/-- Whether byte `v` has the bit of value `1 << k` set: the test
`v & (1 << k) != 0`. -/
def bitSet (v k : Nat) : Bool := v &&& (1 <<< k) != 0

/-- The value `ceil(n / 8)` as the specification writes it. -/
def ceilDiv8 (n : Nat) : Nat := (n + 7) / 8

/-- The payload rows in closed form: `height` rows of `widthBytes` packed bytes. -/
def rowsUpTo (img : Image) (width widthBytes : Nat) : Nat → List Nat
  | 0 => []
  | n + 1 => rowsUpTo img width widthBytes n ++ (List.range widthBytes).map (packByte img width n)

/-! ## Concrete inputs -/

/-- A resampler that hands back its input, which is what the resampling
library does for an image that already has the requested size and for an image
without pixels. -/
def resizeSame : Resampler := fun _ _ img => img

/-- A 384 by 192 image whose `At` reports gray 0 everywhere: every pixel pure
black, and the zero colour outside the bounds. -/
def blackLabel : Image := { Dx := 384, Dy := 192, grayAt := fun _ _ => 0 }

/-- A 384 by 192 image whose `At` reports gray 255 everywhere. -/
def whiteLabel : Image := { Dx := 384, Dy := 192, grayAt := fun _ _ => 255 }

/-- An image without pixels: zero columns, one row. -/
def emptyImage : Image := { Dx := 0, Dy := 1, grayAt := fun _ _ => 0 }

/-- An image without pixels: zero columns, 65536 rows. -/
def tallEmptyImage : Image := { Dx := 0, Dy := 65536, grayAt := fun _ _ => 0 }

/-! ## `printBarcode` -/

/-- The calls `printBarcode` makes to the outside world, in the order made. -/
inductive Event where
  /-- The call `gousb.NewContext()`. -/
  | newContext
  /-- The deferred `ctx.Close()`. -/
  | closeContext
  /-- The call `io.ReadAll(r.Body)`. -/
  | readBody
  /-- The deferred `r.Body.Close()`. -/
  | closeBody
  /-- The call `png.Decode(bytes.NewReader(imageBytes))`. -/
  | decodePng
  /-- A call of `fmt.Println`. -/
  | println
  /-- A call `http.Error(w, msg, code)`. -/
  | httpError (code : Nat)
  /-- The call `ConvertToESCPos(img)`. -/
  | convert
  /-- The call `ctx.OpenDeviceWithVIDPID(vendorId, productId)`. -/
  | openDevice (vendorId productId : Nat)
  /-- The deferred `dev.Close()`. -/
  | closeDevice
  /-- The call `dev.DefaultInterface()`. -/
  | claimInterface
  /-- The deferred `done()`. -/
  | releaseInterface
  /-- The call `intf.OutEndpoint(n)`. -/
  | openEndpoint (n : Nat)
  /-- A call `outEndpoint.Write(data)`. -/
  | write (data : List Nat)
  /-- A call of `log.Fatal`, which ends the process without running the
  deferred calls. -/
  | fatal
  deriving DecidableEq

/-- How a run of the handler ends. -/
inductive Completion where
  /-- The handler returned; `status` is the status of the response, 200 when
  the handler wrote none. -/
  | returned (status : Nat)
  /-- The process was ended by `log.Fatal`. -/
  | exited
  deriving DecidableEq

/-- What the outside world answers to the calls of one run of `printBarcode`. -/
structure Env where
  /-- The resampler behind `resize.Resize`. -/
  Resize : Resampler
  /-- The bytes `io.ReadAll(r.Body)` returns, `none` when its `err` is not nil. -/
  readAll : Option (List Nat)
  /-- The image `png.Decode` returns, `none` when its `err` is not nil. -/
  decode : List Nat → Option Image
  /-- Whether `ctx.OpenDeviceWithVIDPID` returns a nil `err`. -/
  openDevice : Bool
  /-- Whether `dev.DefaultInterface()` returns a nil `err`. -/
  defaultInterface : Bool
  /-- Whether `intf.OutEndpoint(1)` returns a nil `err`. -/
  outEndpoint : Bool
  /-- The result of the `k`-th call `outEndpoint.Write(data)`: the number of
  bytes written and whether `err` is not nil. -/
  write : Nat → List Nat → Nat × Bool

/-- The trace of a run and how it ended. -/
structure Outcome where
  /-- The calls made, in order. -/
  trace : List Event
  /-- How the run ended. -/
  completion : Completion

/-- Whether a result of `Write(data)` is a failure: a transport error or fewer
bytes written than requested. -/
def writeFailed (result : Nat × Bool) (data : List Nat) : Bool :=
  result.2 || decide (result.1 < data.length)

/-- The handler `printBarcode` of `main.go`.  The deferred calls run, last
registered first, when the handler returns, and not after `log.Fatal`. -/
def printBarcode (env : Env) : Outcome :=
  let trace := [Event.newContext, Event.readBody]
  match env.readAll with
  | none =>
    { trace := trace ++ [Event.httpError 400, Event.closeContext],
      completion := Completion.returned 400 }
  | some imageBytes =>
    let trace := trace ++ [Event.decodePng]
    match env.decode imageBytes with
    | none =>
      { trace := trace ++ [Event.println, Event.httpError 400, Event.closeBody,
          Event.closeContext],
        completion := Completion.returned 400 }
    | some img =>
      let rawBytes := ConvertToESCPos env.Resize img
      let trace := trace ++ [Event.convert]
      let vendorId := 0x4b43
      let productId := 0x3538
      let trace := trace ++ [Event.openDevice vendorId productId]
      if !env.openDevice then
        { trace := trace ++ [Event.fatal], completion := Completion.exited }
      else
        let trace := trace ++ [Event.println, Event.claimInterface]
        if !env.defaultInterface then
          { trace := trace ++ [Event.fatal], completion := Completion.exited }
        else
          let trace := trace ++ [Event.openEndpoint 1]
          if !env.outEndpoint then
            { trace := trace ++ [Event.fatal], completion := Completion.exited }
          else
            let initCmd := [0x1B, 0x40]
            let _ := env.write 0 initCmd
            let trace := trace ++ [Event.write initCmd]
            let _ := env.write 1 rawBytes
            let trace := trace ++ [Event.write rawBytes]
            { trace := trace ++ [Event.releaseInterface, Event.closeDevice, Event.closeBody,
                Event.closeContext],
              completion := Completion.returned 200 }

/-- Whether an event is a device write. -/
def Event.isWrite : Event → Bool
  | Event.write _ => true
  | _ => false

/-- An environment in which the body decodes to the all-black label, the
device, its interface and its endpoint open, and every write fails with a
transport error and no byte written. -/
def failingWriteEnv : Env :=
  { Resize := resizeSame, readAll := some [], decode := fun _ => some blackLabel,
    openDevice := true, defaultInterface := true, outEndpoint := true,
    write := fun _ _ => (0, true) }

/-- An environment whose request body does not decode as an image. -/
def undecodableEnv : Env :=
  { Resize := resizeSame, readAll := some [0x47, 0x49, 0x46], decode := fun _ => none,
    openDevice := true, defaultInterface := true, outEndpoint := true,
    write := fun _ data => (data.length, false) }

/-! ## Structure of the output -/

theorem packRow_eq (img : Image) (width widthBytes y : Nat) (acc : List Nat) :
    packRow img width widthBytes y acc
      = acc ++ (List.range widthBytes).map (packByte img width y) := by
  unfold packRow
  induction widthBytes with
  | zero => simp
  | succ n ih => simp [List.range_succ, List.foldl_append, ih]

theorem packRows_eq (img : Image) (width widthBytes height : Nat) (acc : List Nat) :
    packRows img width widthBytes height acc = acc ++ rowsUpTo img width widthBytes height := by
  unfold packRows
  induction height with
  | zero => simp [rowsUpTo]
  | succ n ih =>
    rw [List.range_succ, List.foldl_append, ih]
    simp [rowsUpTo, packRow_eq]

theorem rowsUpTo_length (img : Image) (width widthBytes n : Nat) :
    (rowsUpTo img width widthBytes n).length = n * widthBytes := by
  induction n with
  | zero => simp [rowsUpTo]
  | succ n ih => simp [rowsUpTo, ih, Nat.succ_mul]

theorem rowsUpTo_get (img : Image) (width widthBytes n y c : Nat)
    (hy : y < n) (hc : c < widthBytes) :
    (rowsUpTo img width widthBytes n)[y * widthBytes + c]? = some (packByte img width y c) := by
  induction n with
  | zero => omega
  | succ n ih =>
    simp only [rowsUpTo]
    by_cases h : y < n
    · have hlt : y * widthBytes + c < (rowsUpTo img width widthBytes n).length := by
        rw [rowsUpTo_length]
        calc y * widthBytes + c < y * widthBytes + widthBytes := by omega
          _ = (y + 1) * widthBytes := by ring
          _ ≤ n * widthBytes := Nat.mul_le_mul_right _ h
      rw [List.getElem?_append_left hlt]
      exact ih h
    · have hyn : y = n := by omega
      subst hyn
      have hle : (rowsUpTo img width widthBytes y).length ≤ y * widthBytes + c := by
        rw [rowsUpTo_length]; omega
      rw [List.getElem?_append_right hle, rowsUpTo_length]
      simp [hc]

theorem convert_eq (Resize : Resampler) (img : Image) :
    ConvertToESCPos Resize img
      = [0x1B, 0x40, 0x1D, 0x76, 0x30, 0x00,
          widthBytesOf ((resampled Resize img).Dx + 125) % 256,
          (widthBytesOf ((resampled Resize img).Dx + 125) >>> 8) % 256,
          (resampled Resize img).Dy % 256, ((resampled Resize img).Dy >>> 8) % 256]
        ++ rowsUpTo (resampled Resize img) ((resampled Resize img).Dx + 125)
            (widthBytesOf ((resampled Resize img).Dx + 125)) (resampled Resize img).Dy
        ++ [0x0A, 0x0A] := by
  simp [ConvertToESCPos, resampled, packRows_eq]

theorem convert_length (Resize : Resampler) (img : Image) :
    (ConvertToESCPos Resize img).length
      = 10 + (resampled Resize img).Dy * widthBytesOf ((resampled Resize img).Dx + 125) + 2 := by
  rw [convert_eq]
  simp [rowsUpTo_length]
  omega

theorem payload_convert (Resize : Resampler) (img : Image) :
    payload (ConvertToESCPos Resize img)
      = rowsUpTo (resampled Resize img) ((resampled Resize img).Dx + 125)
          (widthBytesOf ((resampled Resize img).Dx + 125)) (resampled Resize img).Dy := by
  unfold payload
  rw [convert_length, convert_eq]
  simp [rowsUpTo_length]

theorem widthBytesOf_eq_ceil (width : Nat) : widthBytesOf width = ceilDiv8 width := by
  simp only [widthBytesOf, ceilDiv8]
  split <;> omega

theorem foldl_bitStep_testBit (img : Image) (width y xByte : Nat) (l : List Nat) (acc k : Nat) :
    (l.foldl (bitStep img width y xByte) acc).testBit k
      = (acc.testBit k || l.any (fun bit =>
          decide (xByte * 8 + bit < width ∧ (img.grayAt (xByte * 8 + bit) y).val < 128)
            && decide (7 - bit = k))) := by
  induction l generalizing acc with
  | nil => simp
  | cons bit l ih =>
    simp only [List.foldl_cons, List.any_cons, ih]
    unfold bitStep
    by_cases h1 : xByte * 8 + bit < width
    · by_cases h2 : (img.grayAt (xByte * 8 + bit) y).val < 128
      · simp [h1, h2, Nat.one_shiftLeft, Nat.testBit_two_pow, Bool.or_assoc]
      · simp [h1, h2]
    · simp [h1]

theorem packByte_testBit (img : Image) (width y xByte b : Nat) (hb : b < 8) :
    (packByte img width y xByte).testBit (7 - b)
      = decide (xByte * 8 + b < width ∧ (img.grayAt (xByte * 8 + b) y).val < 128) := by
  unfold packByte
  rw [foldl_bitStep_testBit]
  have h8 : List.range 8 = [0, 1, 2, 3, 4, 5, 6, 7] := by decide
  rw [h8]
  interval_cases b <;> simp

theorem bitSet_eq_testBit (v k : Nat) : bitSet v k = v.testBit k := by
  unfold bitSet
  rw [Nat.one_shiftLeft]
  cases h : v.testBit k
  · have h0 : v &&& 2 ^ k = 0 := by
      apply Nat.eq_of_testBit_eq
      intro i
      by_cases hik : k = i
      · subst hik; simp [h]
      · simp [Nat.testBit_two_pow, hik]
    simp [h0]
  · have h1 : v &&& 2 ^ k = 2 ^ k := by
      apply Nat.eq_of_testBit_eq
      intro i
      by_cases hik : k = i
      · subst hik; simp [h]
      · simp [Nat.testBit_two_pow, hik]
    simp [h1]

theorem packByte_bitSet (img : Image) (width y xByte b : Nat) (hb : b < 8) :
    bitSet (packByte img width y xByte) (7 - b) = true
      ↔ (xByte * 8 + b < width ∧ (img.grayAt (xByte * 8 + b) y).val < 128) := by
  rw [bitSet_eq_testBit, packByte_testBit img width y xByte b hb]
  simp

theorem packByte_all_clear (img : Image) (width y xByte : Nat)
    (h : ∀ b, b < 8 → xByte * 8 + b < width → 128 ≤ (img.grayAt (xByte * 8 + b) y).val) :
    packByte img width y xByte = 0 := by
  apply Nat.eq_of_testBit_eq
  intro i
  unfold packByte
  rw [foldl_bitStep_testBit]
  simp only [Nat.zero_testBit, Bool.false_or, List.any_eq_false]
  intro bit hbit
  have hb8 : bit < 8 := List.mem_range.mp hbit
  by_cases hx : xByte * 8 + bit < width
  · have := h bit hb8 hx
    simp [hx]
    omega
  · simp [hx]

theorem packByte_all_set (img : Image) (width y xByte : Nat)
    (h : ∀ b, b < 8 → xByte * 8 + b < width ∧ (img.grayAt (xByte * 8 + b) y).val < 128) :
    packByte img width y xByte = 255 := by
  have h8 : List.range 8 = [0, 1, 2, 3, 4, 5, 6, 7] := by decide
  have h0 := h 0 (by decide)
  have h1 := h 1 (by decide)
  have h2 := h 2 (by decide)
  have h3 := h 3 (by decide)
  have h4 := h 4 (by decide)
  have h5 := h 5 (by decide)
  have h6 := h 6 (by decide)
  have h7 := h 7 (by decide)
  simp only [Nat.add_zero] at h0
  simp [packByte, h8, bitStep, h0, h1, h2, h3, h4, h5, h6, h7]

theorem packByte_low_clear (img : Image) (width y xByte k : Nat)
    (h : ∀ b, b < 8 → 7 - b < k → width ≤ xByte * 8 + b) :
    packByte img width y xByte % 2 ^ k = 0 := by
  apply Nat.eq_of_testBit_eq
  intro i
  rw [Nat.testBit_mod_two_pow, Nat.zero_testBit]
  by_cases hik : i < k
  · by_cases hi8 : i < 8
    · have hb : 7 - i < 8 := by omega
      have hx := h (7 - i) hb (by omega)
      have := packByte_testBit img width y xByte (7 - i) hb
      have e : 7 - (7 - i) = i := by omega
      rw [e] at this
      rw [this]
      simp
      omega
    · unfold packByte
      rw [foldl_bitStep_testBit]
      simp only [Nat.zero_testBit, Bool.false_or, Bool.and_eq_false_imp, decide_eq_true_eq,
        List.any_eq_false, Bool.and_eq_true, not_and, Bool.not_eq_true, decide_eq_false_iff_not]
      intro bit _ _
      simp
      omega
  · simp [hik]

theorem payload_get (Resize : Resampler) (img : Image) (y c : Nat)
    (hy : y < (resampled Resize img).Dy)
    (hc : c < widthBytesOf ((resampled Resize img).Dx + 125)) :
    (payload (ConvertToESCPos Resize img))[y * widthBytesOf ((resampled Resize img).Dx + 125) + c]?
      = some (packByte (resampled Resize img) ((resampled Resize img).Dx + 125) y c) := by
  rw [payload_convert]
  exact rowsUpTo_get _ _ _ _ y c hy hc

theorem le16_bytes (n : Nat) : le16 (n % 256) ((n >>> 8) % 256) = n % 65536 := by
  unfold le16
  rw [Nat.shiftRight_eq_div_pow]
  omega

theorem header_convert (Resize : Resampler) (img : Image) :
    header (ConvertToESCPos Resize img)
      = [0x1B, 0x40, 0x1D, 0x76, 0x30, 0x00,
          widthBytesOf ((resampled Resize img).Dx + 125) % 256,
          (widthBytesOf ((resampled Resize img).Dx + 125) >>> 8) % 256,
          (resampled Resize img).Dy % 256, ((resampled Resize img).Dy >>> 8) % 256] := by
  unfold header
  rw [convert_eq]
  simp

theorem widthField_convert (Resize : Resampler) (img : Image) :
    widthField (ConvertToESCPos Resize img)
      = some (widthBytesOf ((resampled Resize img).Dx + 125) % 65536) := by
  unfold widthField
  rw [convert_eq]
  simp [le16_bytes]

theorem heightField_convert (Resize : Resampler) (img : Image) :
    heightField (ConvertToESCPos Resize img) = some ((resampled Resize img).Dy % 65536) := by
  unfold heightField
  rw [convert_eq]
  simp [le16_bytes]

theorem trailer_convert (Resize : Resampler) (img : Image) :
    trailer (ConvertToESCPos Resize img) = [0x0A, 0x0A] := by
  unfold trailer
  rw [convert_length, convert_eq]
  exact List.drop_left' (by simp [rowsUpTo_length]; omega)

/-! ## The raster payload -/

/-- C1: for an image whose resampled form has width `W` and height `H`, for a
row `y < H`, a byte column `c < ceil((W+125)/8)` and a bit position `b < 8`
with `8*c+b < W`, the payload byte at index `y*ceil((W+125)/8)+c` exists and
has its bit of value `1 << (7-b)` set exactly when the gray value of the
resampled pixel `(8*c+b, y)` is below 128. -/
theorem payload_bit_iff_dark (Resize : Resampler) (img : Image) (W H y c b : Nat)
    (hW : (resampled Resize img).Dx = W) (hH : (resampled Resize img).Dy = H)
    (hy : y < H) (hc : c < ceilDiv8 (W + 125)) (hb : b < 8) (hx : 8 * c + b < W) :
    ∃ v, (payload (ConvertToESCPos Resize img))[y * ceilDiv8 (W + 125) + c]? = some v ∧
      (bitSet v (7 - b) = true ↔ ((resampled Resize img).grayAt (8 * c + b) y).val < 128) := by
  subst hW hH
  rw [← widthBytesOf_eq_ceil] at hc ⊢
  refine ⟨_, payload_get Resize img y c hy hc, ?_⟩
  rw [packByte_bitSet _ _ _ _ _ hb, Nat.mul_comm c 8]
  constructor
  · exact fun h => h.2
  · exact fun h => ⟨by omega, h⟩

/-- Witness of C1 on the all-black 384 by 192 label, row 5, byte column 3,
bit 2. -/
theorem payload_bit_iff_dark_witness :
    ∃ v, (payload (ConvertToESCPos resizeSame blackLabel))[5 * ceilDiv8 (384 + 125) + 3]? = some v ∧
      (bitSet v (7 - 2) = true
        ↔ ((resampled resizeSame blackLabel).grayAt (8 * 3 + 2) 5).val < 128) :=
  payload_bit_iff_dark resizeSame blackLabel 384 192 5 3 2 rfl rfl (by decide) (by decide)
    (by decide) (by decide)

/-- C3: the payload region of the output, the bytes between the header and the
two-byte trailer, has length exactly `ceil((W+125)/8) * H` for resampled width
`W` and height `H`; for the 384 by 192 geometry that is `64 * 192 = 12288`. -/
theorem payload_length (Resize : Resampler) (img : Image) (W H : Nat)
    (hW : (resampled Resize img).Dx = W) (hH : (resampled Resize img).Dy = H) :
    (payload (ConvertToESCPos Resize img)).length = ceilDiv8 (W + 125) * H ∧
      (W = 384 → H = 192 →
        ceilDiv8 (W + 125) = 64 ∧ (payload (ConvertToESCPos Resize img)).length = 12288) := by
  subst hW hH
  have hlen : (payload (ConvertToESCPos Resize img)).length
      = ceilDiv8 ((resampled Resize img).Dx + 125) * (resampled Resize img).Dy := by
    rw [payload_convert, rowsUpTo_length, widthBytesOf_eq_ceil, Nat.mul_comm]
  refine ⟨hlen, ?_⟩
  intro h1 h2
  rw [hlen, h1, h2]
  decide

/-- Witness of C3 on the all-white 384 by 192 label. -/
theorem payload_length_witness :
    (payload (ConvertToESCPos resizeSame whiteLabel)).length = ceilDiv8 (384 + 125) * 192 ∧
      (384 = 384 → 192 = 192 →
        ceilDiv8 (384 + 125) = 64
          ∧ (payload (ConvertToESCPos resizeSame whiteLabel)).length = 12288) :=
  payload_length resizeSame whiteLabel 384 192 rfl rfl

/-- C4, as the claim states it, fails: on the all-black 384 by 192 label, whose
`At` reports gray 0 also outside the bounds, payload byte 48 of row 0 covers
the x-coordinates 384 to 391, all inside the padding margin, and it is `0xFF`:
the margin bits are set, from gray values the loop did compute. -/
theorem margin_bits_counterexample :
    (resampled resizeSame blackLabel).Dx = 384 ∧
      384 ≤ 8 * 48 + 0 ∧ 8 * 48 + 7 < 384 + 125 ∧
      (payload (ConvertToESCPos resizeSame blackLabel))[0 * ceilDiv8 (384 + 125) + 48]?
        = some 0xFF ∧
      bitSet 0xFF (7 - 0) = true := by
  refine ⟨rfl, by decide, by decide, ?_, by decide⟩
  have h := payload_get resizeSame blackLabel 0 48 (by decide) (by decide)
  have hw : widthBytesOf ((resampled resizeSame blackLabel).Dx + 125) = ceilDiv8 (384 + 125) := by
    decide
  rw [hw] at h
  rw [h]
  decide

/-- C4 amended: the guard of the bit loop compares `x` with the working width
`W + 125`.  For a row `y < H`, a byte column `c < ceil((W+125)/8)` and a bit
`b < 8` whose x-coordinate `8*c+b` is at or beyond the resampled width `W`, the
payload bit is set exactly when `x` is below `W + 125` and the gray value that
`At` reports at `(x, y)` is below 128; so every bit at or beyond `W + 125` is
0, and a bit inside the margin is read from the image like any other. -/
theorem margin_bits (Resize : Resampler) (img : Image) (W H y c b : Nat)
    (hW : (resampled Resize img).Dx = W) (hH : (resampled Resize img).Dy = H)
    (hy : y < H) (hc : c < ceilDiv8 (W + 125)) (hb : b < 8) (_hx : W ≤ 8 * c + b) :
    ∃ v, (payload (ConvertToESCPos Resize img))[y * ceilDiv8 (W + 125) + c]? = some v ∧
      (bitSet v (7 - b) = true
        ↔ (8 * c + b < W + 125 ∧ ((resampled Resize img).grayAt (8 * c + b) y).val < 128)) ∧
      (W + 125 ≤ 8 * c + b → bitSet v (7 - b) = false) := by
  subst hW hH
  rw [← widthBytesOf_eq_ceil] at hc ⊢
  refine ⟨_, payload_get Resize img y c hy hc, ?_, ?_⟩
  · rw [packByte_bitSet _ _ _ _ _ hb, Nat.mul_comm c 8]
  · intro hge
    rw [Bool.eq_false_iff]
    intro hset
    have := (packByte_bitSet _ _ _ _ _ hb).mp hset
    omega

/-- Witness of the amended C4 on the all-black label: row 0, byte column 63,
bit 5, x-coordinate 509. -/
theorem margin_bits_witness :
    ∃ v, (payload (ConvertToESCPos resizeSame blackLabel))[0 * ceilDiv8 (384 + 125) + 63]? = some v ∧
      (bitSet v (7 - 5) = true
        ↔ (8 * 63 + 5 < 384 + 125
            ∧ ((resampled resizeSame blackLabel).grayAt (8 * 63 + 5) 0).val < 128)) ∧
      (384 + 125 ≤ 8 * 63 + 5 → bitSet v (7 - 5) = false) :=
  margin_bits resizeSame blackLabel 384 192 0 63 5 rfl rfl (by decide) (by decide) (by decide)
    (by decide)

/-- C6: when every resampled pixel has gray value at least 128, every payload
byte at a byte column lying wholly within the resampled width (`8*c+8 <= W`;
columns 0 to 47 for width 384) is `0x00`; when every resampled pixel has gray
value below 128, every such byte is `0xFF`. -/
theorem uniform_image_bytes (Resize : Resampler) (img : Image) (W H y c : Nat)
    (hW : (resampled Resize img).Dx = W) (hH : (resampled Resize img).Dy = H)
    (hy : y < H) (hc : 8 * c + 8 ≤ W) :
    ((∀ x r, x < W → r < H → 128 ≤ ((resampled Resize img).grayAt x r).val) →
        (payload (ConvertToESCPos Resize img))[y * ceilDiv8 (W + 125) + c]? = some 0x00) ∧
      ((∀ x r, x < W → r < H → ((resampled Resize img).grayAt x r).val < 128) →
        (payload (ConvertToESCPos Resize img))[y * ceilDiv8 (W + 125) + c]? = some 0xFF) ∧
      (W = 384 → (c < 48 ↔ 8 * c + 8 ≤ W)) := by
  subst hW hH
  have hcw : c < widthBytesOf ((resampled Resize img).Dx + 125) := by
    rw [widthBytesOf_eq_ceil]; unfold ceilDiv8; omega
  rw [← widthBytesOf_eq_ceil]
  refine ⟨?_, ?_, ?_⟩
  · intro hwhite
    rw [payload_get Resize img y c hy hcw, packByte_all_clear]
    intro b hb _
    exact hwhite _ _ (by omega) hy
  · intro hblack
    rw [payload_get Resize img y c hy hcw, packByte_all_set]
    intro b hb
    exact ⟨by omega, hblack _ _ (by omega) hy⟩
  · intro h384
    omega

/-- Witness of C6: the all-white label gives `0x00` and the all-black label
gives `0xFF` at row 191, byte column 47. -/
theorem uniform_image_bytes_witness :
    (payload (ConvertToESCPos resizeSame whiteLabel))[191 * ceilDiv8 (384 + 125) + 47]? = some 0x00 ∧
      (payload (ConvertToESCPos resizeSame blackLabel))[191 * ceilDiv8 (384 + 125) + 47]?
        = some 0xFF :=
  ⟨(uniform_image_bytes resizeSame whiteLabel 384 192 191 47 rfl rfl (by decide) (by decide)).1
      (fun _ _ _ _ => by show 128 ≤ (255 : Fin 256).val; decide),
    (uniform_image_bytes resizeSame blackLabel 384 192 191 47 rfl rfl (by decide)
      (by decide)).2.1 (fun _ _ _ _ => by show (0 : Fin 256).val < 128; decide)⟩

/-- C8: when the working width `W + 125` is not a multiple of 8, the final
byte of every payload row exists and has every bit whose x-coordinate is at or
beyond the working width equal to 0; for the fixed geometry (working width 509,
64 bytes per row) that byte is byte 63 and its three least-significant bits
are 0. -/
theorem final_byte_padding (Resize : Resampler) (img : Image) (W H y : Nat)
    (hW : (resampled Resize img).Dx = W) (hH : (resampled Resize img).Dy = H)
    (_hmod : (W + 125) % 8 ≠ 0) (hy : y < H) :
    ∃ v, (payload (ConvertToESCPos Resize img))[y * ceilDiv8 (W + 125)
        + (ceilDiv8 (W + 125) - 1)]? = some v ∧
      (∀ b, b < 8 → W + 125 ≤ 8 * (ceilDiv8 (W + 125) - 1) + b → bitSet v (7 - b) = false) ∧
      (W = 384 → ceilDiv8 (W + 125) - 1 = 63 ∧ v % 8 = 0) := by
  subst hW hH
  have hcw : ceilDiv8 ((resampled Resize img).Dx + 125) - 1
      < widthBytesOf ((resampled Resize img).Dx + 125) := by
    rw [widthBytesOf_eq_ceil]; unfold ceilDiv8; omega
  have hget := payload_get Resize img y _ hy hcw
  rw [widthBytesOf_eq_ceil] at hget
  refine ⟨_, hget, ?_, ?_⟩
  · intro b hb hge
    rw [Bool.eq_false_iff]
    intro hset
    have := (packByte_bitSet _ _ _ _ _ hb).mp hset
    omega
  · intro h384
    have h63 : ceilDiv8 ((resampled Resize img).Dx + 125) - 1 = 63 := by
      rw [h384]; decide
    refine ⟨h63, ?_⟩
    rw [h63, h384]
    exact packByte_low_clear _ _ _ _ 3 (by intro b hb hlow; omega)

/-- Witness of C8 on the all-black label, row 7: working width 509. -/
theorem final_byte_padding_witness :
    ∃ v, (payload (ConvertToESCPos resizeSame blackLabel))[7 * ceilDiv8 (384 + 125)
        + (ceilDiv8 (384 + 125) - 1)]? = some v ∧
      (∀ b, b < 8 → 384 + 125 ≤ 8 * (ceilDiv8 (384 + 125) - 1) + b → bitSet v (7 - b) = false) ∧
      (384 = 384 → ceilDiv8 (384 + 125) - 1 = 63 ∧ v % 8 = 0) :=
  final_byte_padding resizeSame blackLabel 384 192 7 rfl rfl (by decide) (by decide)

/-! ## Framing -/

/-- C2, as the claim states it, fails: for an image without pixels that is 65536
rows tall the resampled height is 65536, and the two height bytes of the header
are both 0, which decode to 0. -/
theorem header_fields_counterexample :
    (resampled resizeSame tallEmptyImage).Dy = 65536 ∧
      (header (ConvertToESCPos resizeSame tallEmptyImage)).drop 8 = [0x00, 0x00] ∧
      heightField (ConvertToESCPos resizeSame tallEmptyImage) = some 0 := by
  refine ⟨rfl, ?_, ?_⟩
  · rw [header_convert]; decide
  · rw [heightField_convert]; decide

/-- C2 amended: the output begins with the reset command `0x1B,0x40` and the
raster-mode selector `0x1D,0x76,0x30,0x00`; the next two bytes decode as a
little-endian 16-bit integer to `ceil((W+125)/8) mod 65536` and the two after
them to `H mod 65536`, the low 16 bits that `byte(v), byte(v>>8)` keep.  Both
are the exact values whenever they are below 65536, and for the 384 by 192
geometry the four bytes are `0x40,0x00,0xC0,0x00`. -/
theorem header_fields (Resize : Resampler) (img : Image) (W H : Nat)
    (hW : (resampled Resize img).Dx = W) (hH : (resampled Resize img).Dy = H) :
    (ConvertToESCPos Resize img).take 6 = [0x1B, 0x40, 0x1D, 0x76, 0x30, 0x00] ∧
      widthField (ConvertToESCPos Resize img) = some (ceilDiv8 (W + 125) % 65536) ∧
      heightField (ConvertToESCPos Resize img) = some (H % 65536) ∧
      (ceilDiv8 (W + 125) < 65536 →
        widthField (ConvertToESCPos Resize img) = some (ceilDiv8 (W + 125))) ∧
      (H < 65536 → heightField (ConvertToESCPos Resize img) = some H) ∧
      (W = 384 → H = 192 →
        header (ConvertToESCPos Resize img)
          = [0x1B, 0x40, 0x1D, 0x76, 0x30, 0x00, 0x40, 0x00, 0xC0, 0x00]) := by
  subst hW hH
  refine ⟨?_, ?_, ?_, ?_, ?_, ?_⟩
  · rw [convert_eq]; simp
  · rw [widthField_convert, widthBytesOf_eq_ceil]
  · rw [heightField_convert]
  · intro h
    rw [widthField_convert, widthBytesOf_eq_ceil, Nat.mod_eq_of_lt h]
  · intro h
    rw [heightField_convert, Nat.mod_eq_of_lt h]
  · intro h1 h2
    rw [header_convert, h1, h2]
    decide

/-- Witness of the amended C2 on the all-black 384 by 192 label. -/
theorem header_fields_witness :
    header (ConvertToESCPos resizeSame blackLabel)
      = [0x1B, 0x40, 0x1D, 0x76, 0x30, 0x00, 0x40, 0x00, 0xC0, 0x00] :=
  (header_fields resizeSame blackLabel 384 192 rfl rfl).2.2.2.2.2 rfl rfl

/-- C5, as the claim states it, fails on the all-black 384 by 192 label: the
buffer has `10 + 64*192 + 2 = 12300` bytes, not `8 + 64*192 + 2`, and the last
payload byte of row 0 is `0xF8`, not `0xFF`. -/
theorem black_label_counterexample :
    (ConvertToESCPos resizeSame blackLabel).length = 12300 ∧
      (ConvertToESCPos resizeSame blackLabel).length ≠ 8 + 64 * 192 + 2 ∧
      (payload (ConvertToESCPos resizeSame blackLabel))[0 * 64 + 63]? = some 0xF8 := by
  have hlen : (ConvertToESCPos resizeSame blackLabel).length = 12300 := by
    rw [convert_length]; decide
  refine ⟨hlen, by rw [hlen]; decide, ?_⟩
  have h := payload_get resizeSame blackLabel 0 63 (by decide) (by decide)
  have hw : widthBytesOf ((resampled resizeSame blackLabel).Dx + 125) = 64 := by decide
  rw [hw] at h
  rw [h]
  decide

/-- C5 amended: for an image whose resampled form is 384 by 192 with every
pixel pure black (gray 0), the buffer has `10 + 64*192 + 2` bytes with
`ceil((384+125)/8) = 64`, its last two bytes are `0x0A,0x0A`, every payload
byte in the byte columns 0 to 47 is `0xFF`, and byte 63 of every row has its
three low bits clear.  When `At` also reports a gray value below 128 at the
margin coordinates 384 to 508, the bytes in columns 48 to 62 are `0xFF` too and
byte 63 is `0xF8`. -/
theorem black_label_buffer (Resize : Resampler) (img : Image)
    (hW : (resampled Resize img).Dx = 384) (hH : (resampled Resize img).Dy = 192)
    (hblack : ∀ x y, x < 384 → y < 192 → ((resampled Resize img).grayAt x y).val = 0) :
    (ConvertToESCPos Resize img).length = 10 + 64 * 192 + 2 ∧
      ceilDiv8 (384 + 125) = 64 ∧
      trailer (ConvertToESCPos Resize img) = [0x0A, 0x0A] ∧
      (∀ y c, y < 192 → c < 48 →
        (payload (ConvertToESCPos Resize img))[y * 64 + c]? = some 0xFF) ∧
      (∀ y, y < 192 →
        ∃ v, (payload (ConvertToESCPos Resize img))[y * 64 + 63]? = some v ∧ v % 8 = 0) ∧
      ((∀ x y, 384 ≤ x → x < 509 → y < 192 → ((resampled Resize img).grayAt x y).val < 128) →
        (∀ y c, y < 192 → c < 63 →
          (payload (ConvertToESCPos Resize img))[y * 64 + c]? = some 0xFF) ∧
        (∀ y, y < 192 →
          (payload (ConvertToESCPos Resize img))[y * 64 + 63]? = some 0xF8)) := by
  have hwb : widthBytesOf ((resampled Resize img).Dx + 125) = 64 := by rw [hW]; decide
  have hget : ∀ y c, y < 192 → c < 64 →
      (payload (ConvertToESCPos Resize img))[y * 64 + c]?
        = some (packByte (resampled Resize img) 509 y c) := by
    intro y c hy hc
    have h := payload_get Resize img y c (by rw [hH]; exact hy) (by rw [hwb]; exact hc)
    rw [hwb, hW] at h
    exact h
  refine ⟨?_, by decide, trailer_convert Resize img, ?_, ?_, ?_⟩
  · rw [convert_length, hwb, hH]
  · intro y c hy hc
    rw [hget y c hy (by omega), packByte_all_set]
    intro b hb
    have := hblack (c * 8 + b) y (by omega) hy
    exact ⟨by omega, by omega⟩
  · intro y hy
    exact ⟨_, hget y 63 hy (by decide),
      packByte_low_clear _ _ _ _ 3 (by intro b hb hlow; omega)⟩
  · intro hmargin
    have hdark : ∀ x y, x < 509 → y < 192 → ((resampled Resize img).grayAt x y).val < 128 := by
      intro x y hx hy
      by_cases h : x < 384
      · have := hblack x y h hy
        omega
      · exact hmargin x y (by omega) hx hy
    refine ⟨?_, ?_⟩
    · intro y c hy hc
      rw [hget y c hy (by omega), packByte_all_set]
      intro b hb
      exact ⟨by omega, hdark _ _ (by omega) hy⟩
    · intro y hy
      rw [hget y 63 hy (by decide)]
      have h8 : List.range 8 = [0, 1, 2, 3, 4, 5, 6, 7] := by decide
      have h0 := hdark (63 * 8 + 0) y (by decide) hy
      have h1 := hdark (63 * 8 + 1) y (by decide) hy
      have h2 := hdark (63 * 8 + 2) y (by decide) hy
      have h3 := hdark (63 * 8 + 3) y (by decide) hy
      have h4 := hdark (63 * 8 + 4) y (by decide) hy
      simp only [Nat.add_zero] at h0
      simp [packByte, h8, bitStep, h0, h1, h2, h3, h4]

/-- Witness of the amended C5 on the all-black label. -/
theorem black_label_buffer_witness :
    (ConvertToESCPos resizeSame blackLabel).length = 10 + 64 * 192 + 2 ∧
      trailer (ConvertToESCPos resizeSame blackLabel) = [0x0A, 0x0A] ∧
      (payload (ConvertToESCPos resizeSame blackLabel))[191 * 64 + 47]? = some 0xFF :=
  have h := black_label_buffer resizeSame blackLabel rfl rfl (fun _ _ _ _ => rfl)
  ⟨h.1, h.2.2.1, h.2.2.2.1 191 47 (by decide) (by decide)⟩

/-- C7, as the claim states it, fails: for an image with zero columns and one
row the resampled width is 0, yet the header width field is 16, the height
field is 1 and the payload has 16 bytes. -/
theorem degenerate_counterexample :
    (resampled resizeSame emptyImage).Dx = 0 ∧
      widthField (ConvertToESCPos resizeSame emptyImage) = some 16 ∧
      heightField (ConvertToESCPos resizeSame emptyImage) = some 1 ∧
      (payload (ConvertToESCPos resizeSame emptyImage)).length = 16 := by
  refine ⟨rfl, ?_, ?_, ?_⟩
  · rw [widthField_convert]; decide
  · rw [heightField_convert]; decide
  · rw [payload_convert, rowsUpTo_length]; decide

/-- C7 amended: the function is total and the padding of 125 columns is added
before the byte width is taken.  When the resampled height is 0 the output is
the twelve bytes of reset command, raster header and trailer, with height
field zero and an empty payload; its width field is `ceil((W+125)/8) mod
65536`.  When the resampled width is 0 the width field is 16, not zero, and
the payload has `16 * H` bytes. -/
theorem degenerate_geometry (Resize : Resampler) (img : Image) (W H : Nat)
    (hW : (resampled Resize img).Dx = W) (hH : (resampled Resize img).Dy = H) :
    (H = 0 →
        heightField (ConvertToESCPos Resize img) = some 0 ∧
        payload (ConvertToESCPos Resize img) = [] ∧
        widthField (ConvertToESCPos Resize img) = some (ceilDiv8 (W + 125) % 65536) ∧
        ConvertToESCPos Resize img
          = [0x1B, 0x40, 0x1D, 0x76, 0x30, 0x00,
              ceilDiv8 (W + 125) % 256, (ceilDiv8 (W + 125) >>> 8) % 256, 0x00, 0x00,
              0x0A, 0x0A]) ∧
      (W = 0 →
        widthField (ConvertToESCPos Resize img) = some 16 ∧
        (payload (ConvertToESCPos Resize img)).length = 16 * H) := by
  subst hW hH
  refine ⟨?_, ?_⟩
  · intro h0
    refine ⟨?_, ?_, ?_, ?_⟩
    · rw [heightField_convert, h0]
    · rw [payload_convert, h0]; rfl
    · rw [widthField_convert, widthBytesOf_eq_ceil]
    · rw [convert_eq, h0, widthBytesOf_eq_ceil]; rfl
  · intro h0
    refine ⟨?_, ?_⟩
    · rw [widthField_convert, h0]; decide
    · rw [payload_convert, rowsUpTo_length, h0, Nat.mul_comm]; rfl

/-- Witness of the amended C7 on the image with zero columns and one row. -/
theorem degenerate_geometry_witness :
    widthField (ConvertToESCPos resizeSame emptyImage) = some 16 ∧
      (payload (ConvertToESCPos resizeSame emptyImage)).length = 16 * 1 :=
  (degenerate_geometry resizeSame emptyImage 0 1 rfl rfl).2 rfl

/-! ## The print handler -/

/-- C9, as the claim states it, fails: when every step before the writes
succeeds and the first write returns a transport error with no byte written,
the handler still returns with status 200. -/
theorem write_failure_counterexample :
    writeFailed (failingWriteEnv.write 0 [0x1B, 0x40]) [0x1B, 0x40] = true ∧
      (printBarcode failingWriteEnv).completion = Completion.returned 200 :=
  ⟨rfl, rfl⟩

/-- C9 amended: the results of both device writes are discarded.  When the
body is read and decoded and the device, its interface and its endpoint open,
the handler issues exactly two writes, the reset command and then the command
buffer, and returns with status 200; the outcome is the same whatever the two
writes return. -/
theorem write_results_discarded (env : Env) (imageBytes : List Nat) (img : Image)
    (hread : env.readAll = some imageBytes) (hdec : env.decode imageBytes = some img)
    (hdev : env.openDevice = true) (hintf : env.defaultInterface = true)
    (hout : env.outEndpoint = true) :
    (printBarcode env).completion = Completion.returned 200 ∧
      (printBarcode env).trace.filter Event.isWrite
        = [Event.write [0x1B, 0x40], Event.write (ConvertToESCPos env.Resize img)] ∧
      (∀ results : Nat → List Nat → Nat × Bool,
        (printBarcode { env with write := results }).completion = Completion.returned 200 ∧
        (printBarcode { env with write := results }).trace = (printBarcode env).trace) := by
  refine ⟨?_, ?_, ?_⟩
  · simp [printBarcode, hread, hdec, hdev, hintf, hout]
  · simp [printBarcode, hread, hdec, hdev, hintf, hout, List.filter, Event.isWrite]
  · intro results
    simp [printBarcode, hread, hdec, hdev, hintf, hout]

/-- Witness of the amended C9 in the environment whose writes all fail. -/
theorem write_results_discarded_witness :
    (printBarcode failingWriteEnv).completion = Completion.returned 200 ∧
      (printBarcode failingWriteEnv).trace.filter Event.isWrite
        = [Event.write [0x1B, 0x40], Event.write (ConvertToESCPos resizeSame blackLabel)] :=
  have h := write_results_discarded failingWriteEnv [] blackLabel rfl rfl rfl rfl rfl
  ⟨h.1, h.2.1⟩

/-- C10: when the request body is read but does not decode as an image, the
handler responds with status 400 and its run contains no call of
`ConvertToESCPos`, no opening of the device and no write to it. -/
theorem undecodable_body_rejected (env : Env) (imageBytes : List Nat)
    (hread : env.readAll = some imageBytes) (hdec : env.decode imageBytes = none) :
    (printBarcode env).completion = Completion.returned 400 ∧
      Event.httpError 400 ∈ (printBarcode env).trace ∧
      Event.convert ∉ (printBarcode env).trace ∧
      (∀ vendorId productId, Event.openDevice vendorId productId ∉ (printBarcode env).trace) ∧
      (∀ data, Event.write data ∉ (printBarcode env).trace) := by
  simp [printBarcode, hread, hdec]

/-- Witness of C10 in an environment whose body is not a PNG. -/
theorem undecodable_body_rejected_witness :
    (printBarcode undecodableEnv).completion = Completion.returned 400 ∧
      Event.httpError 400 ∈ (printBarcode undecodableEnv).trace ∧
      Event.convert ∉ (printBarcode undecodableEnv).trace ∧
      (∀ vendorId productId,
        Event.openDevice vendorId productId ∉ (printBarcode undecodableEnv).trace) ∧
      (∀ data, Event.write data ∉ (printBarcode undecodableEnv).trace) :=
  undecodable_body_rejected undecodableEnv [0x47, 0x49, 0x46] rfl rfl

end Goprinter
